import Mathlib

/-!
Shallow embedding of the gorm-xray plugin (src/plugin.go, src/options.go).

The plugin hooks into GORM's callback pipeline: a `before` hook opens an
X-Ray subsegment and attaches it to the operation instance's side-channel,
an `after` hook retrieves it, annotates it with metadata and errors, and
closes it.  Pure text processing (`dbOperation`, `formatQuery`) is embedded
as Lean functions; the stateful hooks are embedded as explicit
state-passing functions, with the span operations of the after hook
reified as an event list.
-/

namespace GormXray

/-- Go error values relevant to the plugin, compared by identity as in the
Go `switch tx.Error` (plugin.go lines 141-150).  `nil` is the absence of an
error; `other` stands for any error value outside the four named sentinels
(a wrapped sentinel is a distinct value in Go, hence `other`). -/
inductive GoErr where
  | nil
  | recordNotFound
  | errSkip
  | eof
  | noRows
  | other (msg : String)
deriving DecidableEq, Repr

/-- An X-Ray segment handle (`*xray.Segment`): identified by a fresh id,
its name, and whether it is a root segment (from `BeginSegment`) or a
subsegment (from `BeginSubsegment`). -/
structure Segment where
  id : Nat
  name : String
  isRoot : Bool
deriving DecidableEq, Repr

/-- An execution context, as far as X-Ray is concerned: the stack of
segments attached to it, innermost (current) first. -/
abbrev Ctx := List Segment

/-- `xray.GetSegment(ctx)`: the current segment of the context, or `none`
when the context carries no active trace session. -/
def getSegment (c : Ctx) : Option Segment :=
  c.head?

/-- A value stored in the instance side-channel (`tx.InstanceSet` stores
`interface{}` values).  `spanPtr` is a `*xray.Segment` (possibly the nil
pointer, hence `Option`); `nonSpan` is a value of any other dynamic type. -/
inductive InstVal where
  | spanPtr (s : Option Segment)
  | nonSpan (tag : String)
deriving DecidableEq, Repr

/-- `tx.InstanceSet key value` on the instance side-channel: a later store
for the same key shadows an earlier one. -/
def instanceSet (m : List (String × InstVal)) (k : String) (v : InstVal) :
    List (String × InstVal) :=
  (k, v) :: m

/-- `tx.InstanceGet key`: the most recently stored value for the key, with
`none` playing the role of Go's `ok = false`. -/
def instanceGet (m : List (String × InstVal)) (k : String) : Option InstVal :=
  match m.find? (fun e => e.1 = k) with
  | some e => some e.2
  | none => none

/-- `tx.Statement`: the fields of the GORM statement the plugin reads or
writes.  Bound parameter values (`Vars`, Go `[]interface{}`) are modelled
as opaque strings since the plugin only forwards them to the dialector. -/
structure Statement where
  Context : Ctx
  SQL : String
  Vars : List String
  Table : String
  RowsAffected : Int
deriving Repr

/-- `*gorm.DB` as seen by the hooks: the statement, the terminal error,
and the instance side-channel. -/
structure DB where
  stmt : Statement
  Error : GoErr
  instMap : List (String × InstVal)
deriving Repr

/-- The plugin struct (plugin.go lines 32-36). `queryFormatter = none`
models the nil function pointer. -/
structure Plugin where
  excludeQueryVars : Bool
  excludeMetrics : Bool
  queryFormatter : Option (String → String)

/-- `PluginConfig` (plugin.go lines 25-29). -/
structure PluginConfig where
  ExcludeQueryVars : Bool
  ExcludeMetrics : Bool
  QueryFormatter : Option (String → String)

/-- `NewPlugin` (plugin.go lines 39-49): apply the options in order to a
zero-valued config, then copy the fields into the plugin. -/
def NewPlugin (opts : List (PluginConfig → PluginConfig)) : Plugin :=
  let cfg := opts.foldl (fun c o => o c) ⟨false, false, none⟩
  ⟨cfg.ExcludeQueryVars, cfg.ExcludeMetrics, cfg.QueryFormatter⟩

/-- `WithExcludeQueryVars` (options.go lines 7-11). -/
def WithExcludeQueryVars (exclude : Bool) : PluginConfig → PluginConfig :=
  fun pc => { pc with ExcludeQueryVars := exclude }

/-- `WithQueryFormatter` (options.go lines 14-18). -/
def WithQueryFormatter (formatter : String → String) : PluginConfig → PluginConfig :=
  fun pc => { pc with QueryFormatter := some formatter }

/-! ## Operation classifier: `dbOperation` (plugin.go lines 163-168)

The four regexes of plugin.go lines 17-22 are embedded as character-list
scanners with exactly the Go `regexp` (RE2, leftmost, non-greedy)
semantics on each:
* `cCommentRegex = (?is)/\x2a.*?\x2a/` removes each block comment up to
  its nearest closer; an unclosed opener matches nothing.
* `lineCommentRegex = (?im)(?:--|#).*?$` removes from a `--` or `#` to
  just before the next newline (or end of input).
* `sqlPrefixRegex = ^[\s;]*` removes leading whitespace (Go `\s` is
  space, tab, newline, form feed, carriage return) and semicolons.
* `firstWordRegex = ^\w+` takes the leading run of `[0-9A-Za-z_]`. -/

/-- Whether a `*/` closer occurs anywhere in the characters. -/
def hasBlockClose : List Char → Bool
  | '*' :: '/' :: _ => true
  | _ :: rest => hasBlockClose rest
  | [] => false

/-- `cCommentRegex.ReplaceAllString(query, "")`, as a scanner: outside a
comment (`inside = false`), a `/*` that has a later `*/` enters comment
mode, a `/*` with no later closer stays verbatim together with the whole
tail (no further match can exist without a closer); inside a comment
(`inside = true`), everything up to and including the nearest `*/` is
dropped. -/
def stripBlockCommentsAux : Bool → List Char → List Char
  | false, '/' :: '*' :: rest =>
      if hasBlockClose rest then stripBlockCommentsAux true rest
      else '/' :: '*' :: rest
  | true, '*' :: '/' :: rest => stripBlockCommentsAux false rest
  | true, _ :: rest => stripBlockCommentsAux true rest
  | false, c :: rest => c :: stripBlockCommentsAux false rest
  | _, [] => []

/-- `cCommentRegex.ReplaceAllString(query, "")`: each `/*` with a later
`*/` is removed together with everything up to the nearest `*/`
(non-greedy, `.` spanning newlines); an unclosed `/*` matches nothing. -/
def stripBlockComments (l : List Char) : List Char :=
  stripBlockCommentsAux false l

/-- `lineCommentRegex.ReplaceAllString(s, "")`, as a scanner: outside a
comment, a `--` or `#` enters comment mode; inside, everything is dropped
up to (not including) the next newline, since multiline `$` matches just
before it and `.` does not cross it. -/
def stripLineCommentsAux : Bool → List Char → List Char
  | true, '\n' :: rest => '\n' :: stripLineCommentsAux false rest
  | true, _ :: rest => stripLineCommentsAux true rest
  | false, '-' :: '-' :: rest => stripLineCommentsAux true rest
  | false, '#' :: rest => stripLineCommentsAux true rest
  | false, c :: rest => c :: stripLineCommentsAux false rest
  | _, [] => []

/-- `lineCommentRegex.ReplaceAllString(s, "")`: from each `--` or `#`,
remove up to the end of its line; the newline itself stays. -/
def stripLineComments (l : List Char) : List Char :=
  stripLineCommentsAux false l

/-- Go regexp `\s`: space, tab, newline, form feed, carriage return. -/
def isGoSpace (c : Char) : Bool :=
  c = ' ' || c = '\t' || c = '\n' || c = '\x0c' || c = '\r'

/-- Go regexp `\w`: ASCII letters, digits, underscore. -/
def isWordChar (c : Char) : Bool :=
  c.isAlphanum || c = '_'

/-- `dbOperation` (plugin.go lines 163-168): strip block comments, then
line comments, then leading whitespace/semicolons, then return the
leading run of word characters lower-cased (empty when there is none). -/
def dbOperation (query : String) : String :=
  let s := stripBlockComments query.data
  let s := stripLineComments s
  let s := s.dropWhile (fun c => isGoSpace c || c = ';')
  String.mk ((s.takeWhile isWordChar).map Char.toLower)

/-! ## The tracing collaborator (AWS X-Ray SDK)

`xray.BeginSegment` / `xray.BeginSubsegment` may fail inside the SDK
(returning a nil segment and leaving the context unchanged); the `XrayEnv`
oracle makes those failure modes explicit so that fail-open behaviour of
the hooks can be stated for every collaborator behaviour.  Fresh segment
ids are threaded through as a counter. -/

structure XrayEnv where
  beginSegmentFails : Bool
  beginSubsegmentFails : Bool

/-- `xray.BeginSegment(ctx, name)`: open a root segment and make it the
context's current segment; on an SDK failure the context is unchanged and
the returned handle is nil. -/
def beginSegment (env : XrayEnv) (c : Ctx) (name : String) (fresh : Nat) :
    Ctx × Option Segment × Nat :=
  if env.beginSegmentFails then (c, none, fresh)
  else
    let s : Segment := ⟨fresh, name, true⟩
    (s :: c, some s, fresh + 1)

/-- `xray.BeginSubsegment(ctx, name)`: open a subsegment under the
context's current segment; with no current segment, or on an SDK failure,
the context is unchanged and the returned handle is nil. -/
def beginSubsegment (env : XrayEnv) (c : Ctx) (name : String) (fresh : Nat) :
    Ctx × Option Segment × Nat :=
  if env.beginSubsegmentFails || (getSegment c).isNone then (c, none, fresh)
  else
    let s : Segment := ⟨fresh, name, false⟩
    (s :: c, some s, fresh + 1)

/-! ## The before hook (plugin.go lines 97-107) -/

/-- `before` (plugin.go lines 97-107): if the statement context has no
segment, begin a `FallbackParent` root segment (discarding the handle);
begin a subsegment named `spanName`; store the new context back into the
statement; attach the subsegment handle under `xray_subsegment`.  The Go
hook returns nothing and has no failure path, which the embedding reflects
by being a total function of the state.  The plugin receiver is passed
unused, as in the source. -/
def before (_p : Plugin) (env : XrayEnv) (spanName : String) (db : DB)
    (fresh : Nat) : DB × Nat :=
  let (ctx0, fresh0) :=
    if (getSegment db.stmt.Context).isNone then
      let r := beginSegment env db.stmt.Context "FallbackParent" fresh
      (r.1, r.2.2)
    else (db.stmt.Context, fresh)
  let r := beginSubsegment env ctx0 spanName fresh0
  ({ db with
      stmt := { db.stmt with Context := r.1 },
      instMap := instanceSet db.instMap "xray_subsegment" (InstVal.spanPtr r.2.1) },
    r.2.2)

/-! ## The after hook (plugin.go lines 110-152) -/

/-- A metadata value: `AddMetadata` receives strings for query, operation
and table, and the int64 `RowsAffected` for the row count. -/
inductive MetaVal where
  | str (s : String)
  | int (n : Int)
deriving DecidableEq, Repr

/-- One operation performed on the retrieved span by the after hook. -/
inductive SpanOp where
  | addMetadata (key : String) (v : MetaVal)
  | addError (e : GoErr)
  | close
deriving DecidableEq, Repr

/-- Lines 123-128 of `after`: the recorded statement text is the raw SQL
when query variables are excluded, otherwise `tx.Dialector.Explain` is
asked to interpolate the bound variables (`explain` stands for the
host-supplied dialector). -/
def recordedQuery (p : Plugin) (explain : String → List String → String)
    (stmt : Statement) : String :=
  if p.excludeQueryVars then stmt.SQL else explain stmt.SQL stmt.Vars

/-- `formatQuery` (plugin.go lines 155-160): apply the configured
formatter, or return the query unchanged when none is configured. -/
def formatQuery (p : Plugin) (query : String) : String :=
  match p.queryFormatter with
  | some f => f query
  | none => query

/-- Lines 141-150 of `after`, the error classification switch: `nil`,
`gorm.ErrRecordNotFound`, `driver.ErrSkip`, `io.EOF` and `sql.ErrNoRows`
fall into the silent cases; the `default` arm calls `AddError` with the
terminal error. -/
def errOps : GoErr → List SpanOp
  | GoErr.nil | GoErr.recordNotFound | GoErr.errSkip
  | GoErr.eof | GoErr.noRows => []
  | e => [SpanOp.addError e]

/-- Lines 123-150 of `after`: the span operations of the hook body, in
program order, excluding the deferred `Close`.  Metadata: always
`db.query` and `db.operation` (both from the formatted text), `db.table`
only for a non-empty table, `db.rows.affected` only when the count is not
the `-1` sentinel; then the error switch adds the terminal error unless it
is one of the five ignorable values. -/
def afterBody (p : Plugin) (explain : String → List String → String)
    (db : DB) : List SpanOp :=
  let fq := formatQuery p (recordedQuery p explain db.stmt)
  [SpanOp.addMetadata "db.query" (MetaVal.str fq),
   SpanOp.addMetadata "db.operation" (MetaVal.str (dbOperation fq))]
  ++ (if db.stmt.Table ≠ "" then
        [SpanOp.addMetadata "db.table" (MetaVal.str db.stmt.Table)] else [])
  ++ (if db.stmt.RowsAffected ≠ -1 then
        [SpanOp.addMetadata "db.rows.affected" (MetaVal.int db.stmt.RowsAffected)]
      else [])
  ++ errOps db.Error

/-- `after` (plugin.go lines 110-152), returning the operations applied to
the retrieved span.  `InstanceGet` must report a value, the value must be
a `*xray.Segment`, and the pointer must be non-nil, else the hook returns
with no span operation.  Past that point `Close` is deferred: `fault`
models an unexpected Go panic in the body after `k` span operations (the
deferred `Close` still runs); `fault = none` is normal execution. -/
def after (p : Plugin) (explain : String → List String → String) (db : DB)
    (fault : Option Nat) : List SpanOp :=
  match instanceGet db.instMap "xray_subsegment" with
  | some (InstVal.spanPtr (some _)) =>
      let body := afterBody p explain db
      (match fault with
       | none => body
       | some k => body.take k) ++ [SpanOp.close]
  | _ => []

/-! ## Initialize (plugin.go lines 63-94) -/

/-- The twelve hook registration names, in the order of the `hooks` table
of `Initialize` (plugin.go lines 66-83): a before and an after hook for
each of the six operation kinds. -/
def hookNames : List String :=
  ["before:create", "after:create",
   "before:select", "after:select",
   "before:delete", "after:delete",
   "before:update", "after:update",
   "before:row", "after:row",
   "before:raw", "after:raw"]

/-- The state of the registration loop: which hooks have been attempted,
and the first registration error, wrapped as in the source. -/
structure InitState where
  attempted : List String
  firstErr : Option String
deriving DecidableEq, Repr

/-- One iteration of the loop of `Initialize` (plugin.go lines 86-91):
register under the `xray:`-prefixed name; on failure record the wrapped
error only when no earlier failure was recorded; always continue.  `reg`
is the host's `Register`, returning `some errMsg` on failure. -/
def initStep (reg : String → Option String) (st : InitState) (n : String) :
    InitState :=
  let err := reg ("xray:" ++ n)
  { attempted := st.attempted ++ [n],
    firstErr :=
      match err, st.firstErr with
      | some e, none => some ("callback register " ++ n ++ " failed: " ++ e)
      | _, _ => st.firstErr }

/-- `Initialize` (plugin.go lines 63-94): attempt every registration of
the hooks table in order, returning the first failure (or `none`). -/
def Initialize (reg : String → Option String) : InitState :=
  hookNames.foldl (initStep reg) ⟨[], none⟩

/-! ## Spec-side observers

Predicates used to state the claims; they read the embedded state but are
not part of the embedded program. -/

/-- Whether the instance side-channel carries a usable span: a value under
`xray_subsegment` that is a non-nil `*xray.Segment`. -/
def spanAttached (db : DB) : Bool :=
  match instanceGet db.instMap "xray_subsegment" with
  | some (InstVal.spanPtr (some _)) => true
  | _ => false

/-- The error markers (arguments of `AddError` calls) in a span-operation
trace, in order. -/
def errorMarkers (ops : List SpanOp) : List GoErr :=
  ops.filterMap fun o =>
    match o with
    | SpanOp.addError e => some e
    | _ => none

/-- The spec's ignorable set: absence of an error, operation-layer "record
not found", driver-layer "skip", end-of-stream, SQL "no rows". -/
def ignorableErr : GoErr → Bool
  | GoErr.nil | GoErr.recordNotFound | GoErr.errSkip
  | GoErr.eof | GoErr.noRows => true
  | GoErr.other _ => false

/-! ## Helper lemmas -/

theorem errOps_eq_ite (e : GoErr) :
    errOps e = if ignorableErr e then [] else [SpanOp.addError e] := by
  cases e <;> rfl

theorem close_not_mem_afterBody (p : Plugin)
    (explain : String → List String → String) (db : DB) :
    SpanOp.close ∉ afterBody p explain db := by
  by_cases ht : db.stmt.Table = "" <;>
    by_cases hr : db.stmt.RowsAffected = -1 <;>
      by_cases he : ignorableErr db.Error = true <;>
        simp [afterBody, errOps_eq_ite, ht, hr, he]

theorem addMetadata_not_mem_errOps (e : GoErr) (k : String) (v : MetaVal) :
    SpanOp.addMetadata k v ∉ errOps e := by
  cases e <;> simp [errOps]

theorem instanceGet_set (m : List (String × InstVal)) (k : String)
    (v : InstVal) : instanceGet (instanceSet m k v) k = some v := by
  simp [instanceGet, instanceSet]

/-! ## Concrete states for witnesses -/

/-- A dialector whose `Explain` appends the rendered variables. -/
def explainEx : String → List String → String :=
  fun s vs => s ++ String.join vs

/-- The zero-configuration plugin, as built by `NewPlugin` with no
options. -/
def pDefault : Plugin := ⟨false, false, none⟩

/-- A concrete subsegment handle. -/
def segEx : Segment := ⟨0, "gorm.Query", false⟩

/-- A concrete statement under an active subsegment context. -/
def stmtEx : Statement := ⟨[segEx], "SELECT 42", [], "", -1⟩

/-- A DB state whose side-channel carries a span, with no error. -/
def dbWithSpan : DB :=
  ⟨stmtEx, GoErr.nil, [("xray_subsegment", InstVal.spanPtr (some segEx))]⟩

/-- A DB state with a span and a reportable error. -/
def dbWithErr : DB :=
  ⟨stmtEx, GoErr.other "disk on fire", [("xray_subsegment", InstVal.spanPtr (some segEx))]⟩

/-- A DB state whose side-channel is empty. -/
def dbNoSpan : DB := ⟨stmtEx, GoErr.nil, []⟩

/-! ## Claims -/

/-- C1: for every after-hook invocation, if a span is attached via the
instance side-channel then the after hook closes it exactly once, and the
close executes for every fault behaviour of the metadata-attachment and
error-classification steps (the fault oracle is universally quantified);
with no span attached the after hook performs no span operation (and, being
a total function, raises no failure). -/
theorem after_closes_attached_span_once (p : Plugin)
    (explain : String → List String → String) (db : DB) (fault : Option Nat) :
    (spanAttached db = true →
      (after p explain db fault).count SpanOp.close = 1) ∧
    (spanAttached db = false → after p explain db fault = []) := by
  unfold spanAttached after
  match hget : instanceGet db.instMap "xray_subsegment" with
  | some (InstVal.spanPtr (some s)) =>
      refine ⟨fun _ => ?_, fun hfalse => by simp at hfalse⟩
      have hnot : SpanOp.close ∉ afterBody p explain db :=
        close_not_mem_afterBody p explain db
      have htake : ∀ k, SpanOp.close ∉ (afterBody p explain db).take k := by
        intro k hmem
        exact hnot (List.take_subset k _ hmem)
      cases fault with
      | none =>
          simp [List.count_append, List.count_eq_zero.mpr hnot]
      | some k =>
          simp [List.count_append, List.count_eq_zero.mpr (htake k)]
  | some (InstVal.spanPtr none) => exact ⟨fun h => by simp at h, fun _ => rfl⟩
  | some (InstVal.nonSpan t) => exact ⟨fun h => by simp at h, fun _ => rfl⟩
  | none => exact ⟨fun h => by simp at h, fun _ => rfl⟩

/-- C1 witness: on a concrete state carrying a span, the after hook emits
exactly one close, including under a fault right after the first metadata
step; on a concrete state with no span it emits nothing. -/
theorem after_closes_attached_span_once_witness :
    (spanAttached dbWithSpan = true ∧
      (after pDefault explainEx dbWithSpan none).count SpanOp.close = 1 ∧
      (after pDefault explainEx dbWithSpan (some 1)).count SpanOp.close = 1) ∧
    (spanAttached dbNoSpan = false ∧
      after pDefault explainEx dbNoSpan none = []) :=
  ⟨⟨rfl,
    (after_closes_attached_span_once pDefault explainEx dbWithSpan none).1 rfl,
    (after_closes_attached_span_once pDefault explainEx dbWithSpan (some 1)).1 rfl⟩,
   ⟨rfl,
    (after_closes_attached_span_once pDefault explainEx dbNoSpan none).2 rfl⟩⟩

/-- C2: the operation classifier strips block comments, then line
comments, then leading whitespace/semicolons, and returns the leading run
of word characters lower-cased, with the empty string (no failure) when no
keyword remains: the three specified examples, plus a comment-only
statement, a mixed-comment-style line, and a statement behind multiple
semicolons and whitespace. -/
theorem dbOperation_classifies :
    dbOperation "/* x */  -- y\n  SELECT 1" = "select" ∧
    dbOperation "   " = "" ∧
    dbOperation ";;INSERT INTO t VALUES (1)" = "insert" ∧
    dbOperation "" = "" ∧
    dbOperation "/* only\na comment */" = "" ∧
    dbOperation "-- c1\n# c2\n/* c3 */ ; \t\n DELETE FROM t" = "delete" ∧
    dbOperation "  ;; \n\t UPDATE t SET x = 1" = "update" := by
  refine ⟨by decide, by decide, by decide, by decide, by decide, by decide,
    by decide⟩

/-- C3: with a span attached, an ignorable terminal error (nil, record not
found, driver skip, EOF, no rows) produces no error marker, and every
other non-nil error produces exactly one error marker equal to that
error. -/
theorem after_error_markers (p : Plugin)
    (explain : String → List String → String) (db : DB)
    (h : spanAttached db = true) :
    (ignorableErr db.Error = true →
      errorMarkers (after p explain db none) = []) ∧
    (ignorableErr db.Error = false →
      errorMarkers (after p explain db none) = [db.Error]) := by
  unfold spanAttached at h
  unfold after
  match hget : instanceGet db.instMap "xray_subsegment" with
  | some (InstVal.spanPtr (some s)) =>
      constructor <;> intro hig <;>
        by_cases ht : db.stmt.Table = "" <;>
          by_cases hr : db.stmt.RowsAffected = -1 <;>
            simp [errorMarkers, afterBody, errOps_eq_ite, ht, hr, hig,
              List.filterMap_append]
  | some (InstVal.spanPtr none) => rw [hget] at h; simp at h
  | some (InstVal.nonSpan t) => rw [hget] at h; simp at h
  | none => rw [hget] at h; simp at h

/-- C3 witness: a concrete reportable error is marked exactly once; a
concrete nil error is not marked. -/
theorem after_error_markers_witness :
    (spanAttached dbWithErr = true ∧ ignorableErr dbWithErr.Error = false ∧
      errorMarkers (after pDefault explainEx dbWithErr none) =
        [GoErr.other "disk on fire"]) ∧
    (spanAttached dbWithSpan = true ∧ ignorableErr dbWithSpan.Error = true ∧
      errorMarkers (after pDefault explainEx dbWithSpan none) = []) :=
  ⟨⟨rfl, rfl,
    (after_error_markers pDefault explainEx dbWithErr rfl).2 rfl⟩,
   ⟨rfl, rfl,
    (after_error_markers pDefault explainEx dbWithSpan rfl).1 rfl⟩⟩

/-- C4: when the tracing collaborator is healthy, the before hook
synthesizes a `FallbackParent` root session exactly when the incoming
context has no active segment, opens a subsegment named after the
operation kind and makes it current in the replaced statement context, and
attaches that same handle under `xray_subsegment`; and for every
collaborator behaviour, healthy or failing, the hook runs to completion
and still attaches a (possibly nil) span pointer — no error is ever
returned. -/
theorem before_opens_span (p : Plugin) (env : XrayEnv) (spanName : String)
    (db : DB) (fresh : Nat)
    (hseg : env.beginSegmentFails = false)
    (hsub : env.beginSubsegmentFails = false) :
    ((getSegment db.stmt.Context = none →
        ∃ s ∈ (before p env spanName db fresh).1.stmt.Context,
          s.name = "FallbackParent" ∧ s.isRoot = true) ∧
      (∃ s, getSegment (before p env spanName db fresh).1.stmt.Context = some s ∧
        s.name = spanName ∧ s.isRoot = false ∧
        instanceGet (before p env spanName db fresh).1.instMap "xray_subsegment" =
          some (InstVal.spanPtr (some s)))) ∧
    (∀ env2 : XrayEnv, ∃ v,
      instanceGet (before p env2 spanName db fresh).1.instMap "xray_subsegment" =
        some (InstVal.spanPtr v)) := by
  constructor
  · cases hctx : db.stmt.Context with
    | nil =>
        constructor
        · intro _
          refine ⟨⟨fresh, "FallbackParent", true⟩, ?_, rfl, rfl⟩
          simp [before, beginSegment, beginSubsegment, getSegment, hctx, hseg, hsub]
        · refine ⟨⟨fresh + 1, spanName, false⟩, ?_, rfl, rfl, ?_⟩
          · simp [before, beginSegment, beginSubsegment, getSegment, hctx, hseg, hsub]
          · simp [before, beginSegment, beginSubsegment, getSegment, hctx, hseg, hsub,
              instanceGet_set]
    | cons cur rest =>
        constructor
        · intro hnone
          exact Option.noConfusion hnone
        · refine ⟨⟨fresh, spanName, false⟩, ?_, rfl, rfl, ?_⟩
          · simp [before, beginSegment, beginSubsegment, getSegment, hctx, hseg, hsub]
          · simp [before, beginSegment, beginSubsegment, getSegment, hctx, hseg, hsub,
              instanceGet_set]
  · intro env2
    exact ⟨_, instanceGet_set _ _ _⟩

/-- C4 witness: from an empty context with a healthy collaborator, the
before hook creates the fallback session, opens the named span, and
attaches it; a failing collaborator still leaves an attached (nil)
pointer. -/
theorem before_opens_span_witness :
    getSegment dbNoSpan.stmt.Context ≠ none ∧
    (∃ s, getSegment (before pDefault ⟨false, false⟩ "gorm.Query" dbNoSpan 1).1.stmt.Context
        = some s ∧
      s.name = "gorm.Query" ∧ s.isRoot = false ∧
      instanceGet (before pDefault ⟨false, false⟩ "gorm.Query" dbNoSpan 1).1.instMap
          "xray_subsegment" = some (InstVal.spanPtr (some s))) ∧
    (∃ v, instanceGet (before pDefault ⟨true, true⟩ "gorm.Query" dbNoSpan 1).1.instMap
        "xray_subsegment" = some (InstVal.spanPtr v)) :=
  ⟨by decide,
   (before_opens_span pDefault ⟨false, false⟩ "gorm.Query" dbNoSpan 1 rfl rfl).1.2,
   (before_opens_span pDefault ⟨false, false⟩ "gorm.Query" dbNoSpan 1 rfl rfl).2
     ⟨true, true⟩⟩

/-- C5: with `excludeQueryVars = true` the after hook's behaviour is
independent of the dialector and of the bound variables (the statement
text is recorded unexpanded, so parameter values are never interpolated),
and the recorded `db.query` value is the raw statement text passed through
the formatter; with `excludeQueryVars = false` the recorded `db.query`
value is the dialector's rendering of the statement with the bound
variables, passed through the formatter. -/
theorem after_query_vars_exclusion (p : Plugin)
    (explain explain2 : String → List String → String)
    (db : DB) (v2 : List String) (fault : Option Nat) :
    (p.excludeQueryVars = true →
      after p explain db fault =
        after p explain2 { db with stmt := { db.stmt with Vars := v2 } } fault ∧
      (spanAttached db = true →
        SpanOp.addMetadata "db.query" (MetaVal.str (formatQuery p db.stmt.SQL)) ∈
          after p explain db none)) ∧
    (p.excludeQueryVars = false → spanAttached db = true →
      SpanOp.addMetadata "db.query"
          (MetaVal.str (formatQuery p (explain db.stmt.SQL db.stmt.Vars))) ∈
        after p explain db none) := by
  constructor
  · intro hx
    constructor
    · simp [after, afterBody, recordedQuery, hx, instanceGet]
    · intro hsp
      unfold spanAttached at hsp
      unfold after
      match hget : instanceGet db.instMap "xray_subsegment" with
      | some (InstVal.spanPtr (some s)) =>
          simp [afterBody, recordedQuery, hx]
      | some (InstVal.spanPtr none) => rw [hget] at hsp; simp at hsp
      | some (InstVal.nonSpan t) => rw [hget] at hsp; simp at hsp
      | none => rw [hget] at hsp; simp at hsp
  · intro hx hsp
    unfold spanAttached at hsp
    unfold after
    match hget : instanceGet db.instMap "xray_subsegment" with
    | some (InstVal.spanPtr (some s)) =>
        simp [afterBody, recordedQuery, hx]
    | some (InstVal.spanPtr none) => rw [hget] at hsp; simp at hsp
    | some (InstVal.nonSpan t) => rw [hget] at hsp; simp at hsp
    | none => rw [hget] at hsp; simp at hsp

/-- A plugin with `excludeQueryVars = true` and no formatter. -/
def pExclude : Plugin := ⟨true, false, none⟩

/-- A parameterized statement with one bound variable. -/
def stmtVars : Statement := ⟨[segEx], "SELECT ?", ["42"], "", -1⟩

/-- A DB state with a span and a bound variable. -/
def dbVars : DB :=
  ⟨stmtVars, GoErr.nil, [("xray_subsegment", InstVal.spanPtr (some segEx))]⟩

/-- A dialector that renders everything to a fixed string, to witness that
it is never consulted when variables are excluded. -/
def explainRed : String → List String → String := fun _ _ => "redacted"

/-- C5 witness: with variables excluded, swapping both the dialector and
the bound variables leaves the after hook's output unchanged, and the
recorded `db.query` is the raw parameterized text; with variables
included, the recorded `db.query` is the dialector's interpolation. -/
theorem after_query_vars_exclusion_witness :
    (after pExclude explainEx dbVars none =
      after pExclude explainRed
        { dbVars with stmt := { dbVars.stmt with Vars := [] } } none) ∧
    (formatQuery pExclude dbVars.stmt.SQL = "SELECT ?" ∧
      SpanOp.addMetadata "db.query" (MetaVal.str (formatQuery pExclude dbVars.stmt.SQL)) ∈
        after pExclude explainEx dbVars none) ∧
    (explainEx dbVars.stmt.SQL dbVars.stmt.Vars = "SELECT ?42" ∧
      SpanOp.addMetadata "db.query"
          (MetaVal.str (formatQuery pDefault (explainEx dbVars.stmt.SQL dbVars.stmt.Vars))) ∈
        after pDefault explainEx dbVars none) :=
  ⟨((after_query_vars_exclusion pExclude explainEx explainRed dbVars [] none).1 rfl).1,
   ⟨rfl,
    ((after_query_vars_exclusion pExclude explainEx explainRed dbVars [] none).1 rfl).2 rfl⟩,
   ⟨by decide,
    (after_query_vars_exclusion pDefault explainEx explainRed dbVars [] none).2 rfl rfl⟩⟩

/-- C6: with a span attached, the after hook records as `db.query` the
rendered statement passed through the configured formatter, and as
`db.operation` the classifier's keyword computed from that same formatted
text; and the formatter is the identity when none is configured. -/
theorem after_uses_formatted_text (p : Plugin)
    (explain : String → List String → String) (db : DB)
    (h : spanAttached db = true) :
    SpanOp.addMetadata "db.query"
        (MetaVal.str (formatQuery p (recordedQuery p explain db.stmt))) ∈
      after p explain db none ∧
    SpanOp.addMetadata "db.operation"
        (MetaVal.str (dbOperation (formatQuery p (recordedQuery p explain db.stmt)))) ∈
      after p explain db none ∧
    (∀ q, formatQuery { p with queryFormatter := none } q = q) := by
  unfold spanAttached at h
  unfold after
  match hget : instanceGet db.instMap "xray_subsegment" with
  | some (InstVal.spanPtr (some s)) =>
      refine ⟨?_, ?_, fun q => by simp [formatQuery]⟩ <;> simp [afterBody]
  | some (InstVal.spanPtr none) => rw [hget] at h; simp at h
  | some (InstVal.nonSpan t) => rw [hget] at h; simp at h
  | none => rw [hget] at h; simp at h

/-- A plugin whose formatter rewrites every query to a fixed statement. -/
def pFmt : Plugin := ⟨false, false, some (fun _ => "DELETE FROM t")⟩

/-- C6 witness: with a formatter that rewrites "SELECT 42" to
"DELETE FROM t", both the recorded query and the derived operation keyword
("delete", not "select") come from the formatted text. -/
theorem after_uses_formatted_text_witness :
    dbOperation stmtEx.SQL = "select" ∧
    formatQuery pFmt (recordedQuery pFmt explainEx dbWithSpan.stmt) = "DELETE FROM t" ∧
    dbOperation (formatQuery pFmt (recordedQuery pFmt explainEx dbWithSpan.stmt)) = "delete" ∧
    SpanOp.addMetadata "db.query"
        (MetaVal.str (formatQuery pFmt (recordedQuery pFmt explainEx dbWithSpan.stmt))) ∈
      after pFmt explainEx dbWithSpan none ∧
    SpanOp.addMetadata "db.operation"
        (MetaVal.str (dbOperation (formatQuery pFmt (recordedQuery pFmt explainEx dbWithSpan.stmt)))) ∈
      after pFmt explainEx dbWithSpan none :=
  ⟨by decide, rfl, by decide,
   (after_uses_formatted_text pFmt explainEx dbWithSpan rfl).1,
   (after_uses_formatted_text pFmt explainEx dbWithSpan rfl).2.1⟩

/-! ## Lemmas about the registration loop -/

theorem initFold_attempted (reg : String → Option String) (l : List String) :
    ∀ st : InitState,
      (l.foldl (initStep reg) st).attempted = st.attempted ++ l := by
  induction l with
  | nil => intro st; simp
  | cons n rest ih =>
      intro st
      rw [List.foldl_cons, ih]
      simp [initStep]

theorem initFold_some (reg : String → Option String) (l : List String) :
    ∀ (st : InitState) (e : String), st.firstErr = some e →
      (l.foldl (initStep reg) st).firstErr = some e := by
  induction l with
  | nil => intro st e h; simpa using h
  | cons n rest ih =>
      intro st e h
      rw [List.foldl_cons]
      refine ih _ e ?_
      cases hr : reg ("xray:" ++ n) <;> simp [initStep, hr, h]

theorem initFold_none_iff (reg : String → Option String) (l : List String) :
    ∀ st : InitState, st.firstErr = none →
      ((l.foldl (initStep reg) st).firstErr = none ↔
        ∀ n ∈ l, reg ("xray:" ++ n) = none) := by
  induction l with
  | nil => intro st h; simpa using h
  | cons n rest ih =>
      intro st h
      rw [List.foldl_cons]
      cases hr : reg ("xray:" ++ n) with
      | none =>
          have hstep : (initStep reg st n).firstErr = none := by
            simp [initStep, hr, h]
          rw [ih _ hstep]
          simp [hr]
      | some e =>
          have hstep : (initStep reg st n).firstErr =
              some ("callback register " ++ n ++ " failed: " ++ e) := by
            simp [initStep, hr, h]
          rw [initFold_some reg rest _ _ hstep]
          simp
          intro hcontra
          rw [hr] at hcontra
          exact absurd hcontra (by simp)

theorem initFold_first_fail (reg : String → Option String) (l : List String) :
    ∀ st : InitState, st.firstErr = none →
      ∀ n e, l.find? (fun m => (reg ("xray:" ++ m)).isSome) = some n →
        reg ("xray:" ++ n) = some e →
        (l.foldl (initStep reg) st).firstErr =
          some ("callback register " ++ n ++ " failed: " ++ e) := by
  induction l with
  | nil => intro st _ n e hfind; simp at hfind
  | cons m rest ih =>
      intro st h n e hfind hreg
      rw [List.foldl_cons]
      cases hr : reg ("xray:" ++ m) with
      | none =>
          rw [List.find?_cons_of_neg _ (by simp [hr])] at hfind
          have hstep : (initStep reg st m).firstErr = none := by
            simp [initStep, hr, h]
          exact ih _ hstep n e hfind hreg
      | some e' =>
          rw [List.find?_cons_of_pos _ (by simp [hr])] at hfind
          cases hfind
          have he : e' = e := by
            rw [hr] at hreg
            exact Option.some.inj hreg
          subst he
          have hstep : (initStep reg st m).firstErr =
              some ("callback register " ++ m ++ " failed: " ++ e') := by
            simp [initStep, hr, h]
          exact initFold_some reg rest _ _ hstep

/-- C7: `Initialize` attempts all twelve registrations (a before and an
after hook for each of the six operation kinds, under pairwise distinct
names) whatever the host answers; it returns no error exactly when every
registration succeeds, and otherwise returns the wrapped error of the
first hook, in table order, whose registration failed. -/
theorem Initialize_registers_all_hooks (reg : String → Option String) :
    (Initialize reg).attempted = hookNames ∧
    hookNames.Nodup ∧ hookNames.length = 12 ∧
    ((Initialize reg).firstErr = none ↔
      ∀ n ∈ hookNames, reg ("xray:" ++ n) = none) ∧
    (∀ n e, hookNames.find? (fun m => (reg ("xray:" ++ m)).isSome) = some n →
      reg ("xray:" ++ n) = some e →
      (Initialize reg).firstErr =
        some ("callback register " ++ n ++ " failed: " ++ e)) := by
  refine ⟨?_, by decide, by decide, ?_, ?_⟩
  · simpa using initFold_attempted reg hookNames ⟨[], none⟩
  · exact initFold_none_iff reg hookNames ⟨[], none⟩ rfl
  · exact initFold_first_fail reg hookNames ⟨[], none⟩ rfl

/-- A host that rejects exactly the after:select registration. -/
def regFailSelect : String → Option String :=
  fun s => if s = "xray:after:select" then some "boom" else none

/-- C7 witness: with a host that rejects only the after:select hook, all
twelve registrations are still attempted and the returned error is that
hook's wrapped failure; with a host that accepts everything, the returned
error is nil. -/
theorem Initialize_registers_all_hooks_witness :
    (Initialize regFailSelect).attempted = hookNames ∧
    (Initialize regFailSelect).firstErr =
      some ("callback register " ++ "after:select" ++ " failed: " ++ "boom") ∧
    (Initialize (fun _ => none)).firstErr = none :=
  ⟨(Initialize_registers_all_hooks regFailSelect).1,
   (Initialize_registers_all_hooks regFailSelect).2.2.2.2 "after:select" "boom"
     (by decide) (by decide),
   (Initialize_registers_all_hooks (fun _ => none)).2.2.2.1.mpr
     (fun n _ => rfl)⟩

/-- C8: with a span attached and normal execution, the after hook always
records `db.query` and `db.operation` metadata; it records `db.table`
exactly when the table name is non-empty, and `db.rows.affected` exactly
when the affected-row count differs from the `-1` sentinel. -/
theorem after_metadata_presence (p : Plugin)
    (explain : String → List String → String) (db : DB)
    (h : spanAttached db = true) :
    (∃ v, SpanOp.addMetadata "db.query" v ∈ after p explain db none) ∧
    (∃ v, SpanOp.addMetadata "db.operation" v ∈ after p explain db none) ∧
    ((∃ v, SpanOp.addMetadata "db.table" v ∈ after p explain db none) ↔
      db.stmt.Table ≠ "") ∧
    ((∃ v, SpanOp.addMetadata "db.rows.affected" v ∈ after p explain db none) ↔
      db.stmt.RowsAffected ≠ -1) := by
  unfold spanAttached at h
  unfold after
  match hget : instanceGet db.instMap "xray_subsegment" with
  | some (InstVal.spanPtr (some s)) =>
      by_cases ht : db.stmt.Table = "" <;>
        by_cases hr : db.stmt.RowsAffected = -1 <;>
          by_cases he : ignorableErr db.Error = true <;>
            simp [afterBody, errOps_eq_ite, ht, hr, he]
  | some (InstVal.spanPtr none) => rw [hget] at h; simp at h
  | some (InstVal.nonSpan t) => rw [hget] at h; simp at h
  | none => rw [hget] at h; simp at h

/-- A statement naming a table and an affected-row count. -/
def stmtTable : Statement := ⟨[segEx], "DELETE FROM users", [], "users", 3⟩

/-- A DB state with a span, a table name and a row count. -/
def dbTable : DB :=
  ⟨stmtTable, GoErr.nil, [("xray_subsegment", InstVal.spanPtr (some segEx))]⟩

/-- C8 witness: a state with table "users" and 3 affected rows records
both optional metadata keys; the state with an empty table and the -1
sentinel records neither. -/
theorem after_metadata_presence_witness :
    ((∃ v, SpanOp.addMetadata "db.table" v ∈ after pDefault explainEx dbTable none) ↔
      dbTable.stmt.Table ≠ "") ∧
    ((∃ v, SpanOp.addMetadata "db.rows.affected" v ∈ after pDefault explainEx dbTable none) ↔
      dbTable.stmt.RowsAffected ≠ -1) ∧
    ((∃ v, SpanOp.addMetadata "db.table" v ∈ after pDefault explainEx dbWithSpan none) ↔
      dbWithSpan.stmt.Table ≠ "") ∧
    (∃ v, SpanOp.addMetadata "db.query" v ∈ after pDefault explainEx dbWithSpan none) :=
  ⟨(after_metadata_presence pDefault explainEx dbTable rfl).2.2.1,
   (after_metadata_presence pDefault explainEx dbTable rfl).2.2.2,
   (after_metadata_presence pDefault explainEx dbWithSpan rfl).2.2.1,
   (after_metadata_presence pDefault explainEx dbWithSpan rfl).1⟩

/-- C9: the `excludeMetrics` field is dead configuration: flipping it
changes neither the before hook nor the after hook on any input, and any
plugin built by `NewPlugin` from the two public options
(`WithExcludeQueryVars`, `WithQueryFormatter`) has `excludeMetrics`
still at its zero value. -/
theorem excludeMetrics_never_read :
    (∀ (p : Plugin) (b : Bool) (env : XrayEnv) (spanName : String) (db : DB)
        (fresh : Nat),
      before { p with excludeMetrics := b } env spanName db fresh =
        before p env spanName db fresh) ∧
    (∀ (p : Plugin) (b : Bool) (explain : String → List String → String)
        (db : DB) (fault : Option Nat),
      after { p with excludeMetrics := b } explain db fault =
        after p explain db fault) ∧
    (∀ opts : List (PluginConfig → PluginConfig),
      (∀ o ∈ opts, (∃ bb, o = WithExcludeQueryVars bb) ∨
        (∃ f, o = WithQueryFormatter f)) →
      (NewPlugin opts).excludeMetrics = false) := by
  refine ⟨fun p b env spanName db fresh => rfl,
    fun p b explain db fault => ?_, ?_⟩
  · obtain ⟨eqv, em, qf⟩ := p
    rfl
  · have key : ∀ (opts : List (PluginConfig → PluginConfig))
        (cfg : PluginConfig),
        (∀ o ∈ opts, (∃ bb, o = WithExcludeQueryVars bb) ∨
          (∃ f, o = WithQueryFormatter f)) →
        (opts.foldl (fun c o => o c) cfg).ExcludeMetrics = cfg.ExcludeMetrics := by
      intro opts
      induction opts with
      | nil => intro cfg _; rfl
      | cons o rest ih =>
          intro cfg hall
          rw [List.foldl_cons]
          rw [ih (o cfg) (fun o' ho' => hall o' (List.mem_cons_of_mem o ho'))]
          rcases hall o (List.mem_cons_self o rest) with ⟨bb, rfl⟩ | ⟨f, rfl⟩
          · rfl
          · rfl
    intro opts hall
    exact key opts ⟨false, false, none⟩ hall

/-- C9 witness: flipping `excludeMetrics` on a concrete plugin leaves a
concrete after-hook invocation unchanged, and a plugin built from both
public options has `excludeMetrics = false`. -/
theorem excludeMetrics_never_read_witness :
    after ⟨false, true, none⟩ explainEx dbWithSpan none =
      after pDefault explainEx dbWithSpan none ∧
    (NewPlugin [WithExcludeQueryVars true,
        WithQueryFormatter (fun _ => "x")]).excludeMetrics = false :=
  ⟨excludeMetrics_never_read.2.1 pDefault true explainEx dbWithSpan none,
   excludeMetrics_never_read.2.2
     [WithExcludeQueryVars true, WithQueryFormatter (fun _ => "x")]
     (by
       intro o ho
       rcases List.mem_cons.mp ho with h | ho2
       · exact Or.inl ⟨true, h⟩
       · rcases List.mem_cons.mp ho2 with h | ho3
         · exact Or.inr ⟨fun _ => "x", h⟩
         · exact absurd ho3 (List.not_mem_nil o))⟩

/-- C10: a side-channel entry under `xray_subsegment` that is absent, that
is not a `*xray.Segment`, or that is a nil span pointer makes the after
hook return immediately with no span operation, for every configuration,
dialector and fault behaviour. -/
theorem after_ignores_non_span_values (p : Plugin)
    (explain : String → List String → String) (fault : Option Nat) :
    (∀ db : DB, instanceGet db.instMap "xray_subsegment" = none →
      after p explain db fault = []) ∧
    (∀ (db : DB) (t : String),
      instanceGet db.instMap "xray_subsegment" = some (InstVal.nonSpan t) →
      after p explain db fault = []) ∧
    (∀ db : DB,
      instanceGet db.instMap "xray_subsegment" = some (InstVal.spanPtr none) →
      after p explain db fault = []) := by
  refine ⟨fun db h => ?_, fun db t h => ?_, fun db h => ?_⟩ <;>
    · unfold after
      rw [h]

/-- A DB state whose side-channel holds a non-span value under the span
key. -/
def dbWrongType : DB :=
  ⟨stmtEx, GoErr.other "late fail", [("xray_subsegment", InstVal.nonSpan "a string")]⟩

/-- A DB state whose side-channel holds a nil span pointer. -/
def dbNilSpan : DB :=
  ⟨stmtEx, GoErr.other "late fail", [("xray_subsegment", InstVal.spanPtr none)]⟩

/-- C10 witness: a wrong-typed value and a nil pointer under the span key
both make a concrete after-hook invocation emit nothing, even with a
reportable error present. -/
theorem after_ignores_non_span_values_witness :
    instanceGet dbWrongType.instMap "xray_subsegment" =
      some (InstVal.nonSpan "a string") ∧
    after pDefault explainEx dbWrongType none = [] ∧
    instanceGet dbNilSpan.instMap "xray_subsegment" =
      some (InstVal.spanPtr none) ∧
    after pDefault explainEx dbNilSpan (some 2) = [] ∧
    after pDefault explainEx dbNoSpan none = [] :=
  ⟨rfl,
   (after_ignores_non_span_values pDefault explainEx none).2.1 dbWrongType
     "a string" rfl,
   rfl,
   (after_ignores_non_span_values pDefault explainEx (some 2)).2.2 dbNilSpan rfl,
   (after_ignores_non_span_values pDefault explainEx none).1 dbNoSpan rfl⟩

end GormXray
